import Mathlib

/-!
Verification of the cogflow FL pipeline-composition subsystem against its
design specification.  The definitions below are a shallow embedding of
`src/cogflow/plugins/kubeflowplugin.py` (signature merger, graph builder,
resource lifecycle operations, readiness poller) and of the run-polling
loop of `src/cogflow/__init__.py`.  External collaborators (the Kubernetes
API, the KFP/Argo executor, the tenacity retry combinator) are modelled at
their interface boundary, as the specification prescribes.
-/

namespace Cogflow

/-- A Python runtime object as far as the merger needs to distinguish
values: the `None` object, the `int` and `str` type objects (used as
annotations), and opaque literals. -/
inductive PyObj
  | pyNone
  | pyInt
  | pyStr
  | lit (s : String)
deriving DecidableEq, Repr

/-- The five parameter kinds of `inspect.Parameter`. -/
inductive ParamKind
  | positionalOnly
  | positionalOrKeyword
  | varPositional
  | keywordOnly
  | varKeyword
deriving DecidableEq, Repr

/-- One `inspect.Parameter`: `dflt = none` models `inspect._empty`
(no default); `ann = none` models an absent annotation. -/
structure Param where
  name : String
  kind : ParamKind
  dflt : Option PyObj
  ann : Option PyObj
deriving DecidableEq, Repr

/-- An `inspect.Signature`: the ordered parameter list of a callable. -/
abbrev Sig := List Param

/-- The client callable's mandatory parameter names
(`client_req` in `create_fl_pipeline`). -/
def client_req : List String := ["server_address", "local_data_connector"]

/-- The server callable's mandatory parameter names
(`server_req` in `create_fl_pipeline`). -/
def server_req : List String := ["number_of_iterations"]

/-- `_valid_param_names`: the names of the POSITIONAL_OR_KEYWORD and
KEYWORD_ONLY parameters of a signature, in declaration order
(variadic and positional-only parameters are skipped). -/
def valid_param_names (sig : Sig) : List String :=
  (sig.filter (fun p =>
    decide (p.kind = ParamKind.positionalOrKeyword) ||
    decide (p.kind = ParamKind.keywordOnly))).map Param.name

/-- `client_extra`: client parameters that are not in the client's
required set. -/
def clientExtraNames (clientSig : Sig) : List String :=
  (valid_param_names clientSig).filter (fun n => !client_req.contains n)

/-- `server_extra`: server parameters that are not in the server's
required set. -/
def serverExtraNames (serverSig : Sig) : List String :=
  (valid_param_names serverSig).filter (fun n => !server_req.contains n)

/-- Models `dict.fromkeys`' de-duplication pass: keep the first
occurrence of each key, in insertion order.  `seen` is the set of keys
already inserted. -/
def fromkeys_loop (seen : List String) : List String → List String
  | [] => []
  | x :: xs =>
    if seen.contains x then fromkeys_loop seen xs
    else x :: fromkeys_loop (x :: seen) xs

/-- `list(dict.fromkeys(l))`: de-duplicate keeping first occurrences. -/
def dedupKeepFirst (l : List String) : List String := fromkeys_loop [] l

/-- `extra_params = list(dict.fromkeys(client_extra + server_extra))`. -/
def extra_params (clientSig serverSig : Sig) : List String :=
  dedupKeepFirst (clientExtraNames clientSig ++ serverExtraNames serverSig)

/-- `sig.parameters.get(name)`: mapping lookup over the full parameter
mapping of a signature (all kinds, not only the merged ones). -/
def sigGet (sig : Sig) (n : String) : Option Param :=
  sig.find? (fun p => p.name == n)

/-- The fixed first pipeline parameter:
`Parameter("number_of_iterations", POSITIONAL_OR_KEYWORD, annotation=int)`. -/
def numberOfIterationsParam : Param :=
  ⟨"number_of_iterations", ParamKind.positionalOrKeyword, none, some PyObj.pyInt⟩

/-- The merged parameter built for an extra name `n`:
`param = client_sig.parameters.get(n, server_sig.parameters.get(n))`,
then `Parameter(n, POSITIONAL_OR_KEYWORD, annotation = param.annotation
if declared else None, default = param.default)`.  The `getD` fallback is
unreachable when `n` is an extra of one of the two callables. -/
def mkExtraParam (clientSig serverSig : Sig) (n : String) : Param :=
  let param := ((sigGet clientSig n).orElse (fun _ => sigGet serverSig n)).getD
    ⟨n, ParamKind.positionalOrKeyword, none, none⟩
  ⟨n, ParamKind.positionalOrKeyword, param.dflt, some (param.ann.getD PyObj.pyNone)⟩

/-- `sig_params`: the full ordered parameter list handed to
`Signature(parameters=sig_params)`. -/
def sig_params (clientSig serverSig : Sig) : List Param :=
  numberOfIterationsParam ::
    (extra_params clientSig serverSig).map (mkExtraParam clientSig serverSig)

/-- Python's `Signature` constructor rejects a non-defaulted
positional-or-keyword parameter that follows a defaulted one. -/
def defaultsOrderOk : List Param → Bool
  | [] => true
  | p :: ps =>
    (if p.dflt.isSome then ps.all (fun q => q.dflt.isSome) else true) &&
      defaultsOrderOk ps

/-- Python's `Signature` constructor validation as relevant to
`create_fl_pipeline`: duplicate parameter names and a non-defaulted
parameter after a defaulted one both raise `ValueError`. -/
def signatureOk (ps : List Param) : Bool :=
  decide (ps.map Param.name).Nodup && defaultsOrderOk ps

/-- `pipeline_sig = Signature(parameters=sig_params)`: the externally
visible signature of the composed pipeline, or the `ValueError` the
constructor raises. -/
def pipeline_sig (clientSig serverSig : Sig) : Except String (List Param) :=
  let ps := sig_params clientSig serverSig
  if signatureOk ps then Except.ok ps
  else Except.error "ValueError: invalid signature parameters"

/-- The merged-signature rule as the specification words it: the
default/annotation of a merged extra come from its first occurrence in
the concatenation client-extras then server-extras, i.e. from the client
when the name is a client extra and from the server otherwise.  Written
only to be compared against `sig_params`. -/
def specMergedParam (clientSig serverSig : Sig) (n : String) : Param :=
  let param :=
    (if (clientExtraNames clientSig).contains n then sigGet clientSig n
     else sigGet serverSig n).getD ⟨n, ParamKind.positionalOrKeyword, none, none⟩
  ⟨n, ParamKind.positionalOrKeyword, param.dflt, some (param.ann.getD PyObj.pyNone)⟩

/-- The spec-worded merged signature, compared against `sig_params`. -/
def specMergedSig (clientSig serverSig : Sig) : List Param :=
  numberOfIterationsParam ::
    (extra_params clientSig serverSig).map (specMergedParam clientSig serverSig)

/-- A per-client data connector: `link` is forwarded verbatim to the
client invocation; `region = none` models a connector object without a
`region` attribute (read in the source via `getattr(connector, "region", "")`). -/
structure Connector where
  link : PyObj
  region : Option String
deriving DecidableEq, Repr

/-- `getattr(connector, "region", "")`. -/
def regionOf (c : Connector) : String := c.region.getD ""

/-- Where a task argument's value comes from at graph-definition time:
the output of an earlier task (`setup_task.output`), a bound pipeline
argument (`args_map[k]`), or a constant captured by the closure. -/
inductive ArgSource
  | taskOutput (taskId : Nat)
  | bound (argName : String)
  | const (v : PyObj)
  | constStr (s : String)
deriving DecidableEq, Repr

/-- The four node kinds of the composed FL graph. -/
inductive TaskKind
  | setup
  | server
  | client
  | teardown
deriving DecidableEq, Repr

/-- A task (ContainerOp) of the composed graph: its invocation arguments
in keyword order, its explicit `.after(...)` ordering dependencies, its
pod labels, its optional node-selector constraint and display name, and
whether it was created inside the `dsl.ExitHandler` block. -/
structure Task where
  id : Nat
  kind : TaskKind
  args : List (String × ArgSource)
  afterDeps : List Nat
  podLabels : List (String × String)
  nodeSelector : Option (String × String)
  displayName : Option String
  inExitScope : Bool
deriving DecidableEq, Repr

/-- The composed graph: tasks in creation order, plus the id of the
`dsl.ExitHandler` cleanup task, if any. -/
structure Graph where
  tasks : List Task
  exitHandler : Option Nat
deriving DecidableEq, Repr

/-- `srv_name = "flserver-" + "{{workflow.uid}}"`: the run-scoped service
name; the placeholder is substituted by the orchestrator at run time. -/
def srv_name : String := "flserver-" ++ "\x7b\x7bworkflow.uid\x7d\x7d"

/-- The task ids assigned in creation order by `fl_pipeline_func`. -/
def setupTaskId : Nat := 0

/-- Id of the cleanup (teardown) task, created second. -/
def cleanupTaskId : Nat := 1

/-- Id of the server task, created third. -/
def serverTaskId : Nat := 2

/-- The client task built for the `i`-th connector inside the loop body
of `fl_pipeline_func`: invoked with `server_address=setup_task.output`,
`local_data_connector=connector.link` and the client extras from the
bound arguments, ordered `.after(setup_task)`, with a node-selector
constraint `("region", region)` only when `node_enforce` holds, and a
display name `"client:" + region`. -/
def clientTaskFor (clientSig : Sig) (node_enforce : Bool) (i : Nat)
    (c : Connector) : Task :=
  ⟨3 + i, TaskKind.client,
    ("server_address", ArgSource.taskOutput setupTaskId) ::
      ("local_data_connector", ArgSource.const c.link) ::
      (clientExtraNames clientSig).map (fun k => (k, ArgSource.bound k)),
    [setupTaskId], [],
    if node_enforce then some ("region", regionOf c) else none,
    some ("client:" ++ regionOf c), true⟩

/-- `setup_task = setup_links(name=srv_name)`: creates the run-scoped
Kubernetes service and outputs its name. -/
def setup_task : Task :=
  ⟨setupTaskId, TaskKind.setup, [("name", ArgSource.constStr srv_name)],
    [], [], none, none, false⟩

/-- `cleanup_task = release_links(name=srv_name)`: deletes the run-scoped
service; registered as the `dsl.ExitHandler` of the graph. -/
def cleanup_task : Task :=
  ⟨cleanupTaskId, TaskKind.teardown, [("name", ArgSource.constStr srv_name)],
    [], [], none, none, false⟩

/-- `server_task = fl_server(number_of_iterations=..., **server_kwargs)
.after(setup_task)`, labelled `app=srv_name`, inside the exit scope. -/
def server_task (serverSig : Sig) : Task :=
  ⟨serverTaskId, TaskKind.server,
    ("number_of_iterations", ArgSource.bound "number_of_iterations") ::
      (serverExtraNames serverSig).map (fun k => (k, ArgSource.bound k)),
    [setupTaskId], [("app", srv_name)], none, none, true⟩

/-- The client-task list: one `clientTaskFor` per connector, in the
connector list's order (the `for connector in connectors` loop). -/
def clientTasks (clientSig : Sig) (node_enforce : Bool)
    (connectors : List Connector) : List Task :=
  connectors.enum.map (fun ic => clientTaskFor clientSig node_enforce ic.1 ic.2)

/-- The graph built by the body of `fl_pipeline_func`: one setup task
(`setup_links(name=srv_name)`), one cleanup task
(`release_links(name=srv_name)`) registered as the `dsl.ExitHandler`,
one server task invoked with `number_of_iterations` and the server
extras and labelled `app=srv_name`, and one client task per connector in
list order.  The server task and every client task are created inside
the exit-handler scope and ordered `.after(setup_task)`. -/
def fl_pipeline_func (clientSig serverSig : Sig) (connectors : List Connector)
    (node_enforce : Bool) : Graph :=
  ⟨setup_task :: cleanup_task :: server_task serverSig ::
      clientTasks clientSig node_enforce connectors,
    some cleanupTaskId⟩

/-- Outcome of one task execution as seen by the orchestrator. -/
inductive Outcome
  | success
  | failure
  | cancelled
deriving DecidableEq, Repr

/-- Modelled from the spec: the external orchestrator's scheduling of the
non-handler tasks — a task executes exactly when every task it is ordered
`.after(...)` has already executed and succeeded; tasks are considered in
creation order and executed at most once. -/
def ranTasks (oc : Nat → Outcome) : List Task → List Nat → List Nat
  | [], acc => acc
  | t :: ts, acc =>
    ranTasks oc ts
      (if t.afterDeps.all (fun d => acc.contains d && decide (oc d = Outcome.success))
       then acc ++ [t.id] else acc)

/-- Modelled from the spec: the guaranteed-cleanup contract of the
orchestrator's exit-handler scope — after the body tasks of a run have
reached their terminal states, the exit-handler task executes exactly
once, on every exit path (success, failure or cancellation of any body
task).  The trace lists executed task ids in execution order. -/
def execTrace (g : Graph) (oc : Nat → Outcome) : List Nat :=
  let body := g.tasks.filter (fun t => !(g.exitHandler == some t.id))
  ranTasks oc body [] ++
    (match g.exitHandler with
     | some h => [h]
     | none => [])

/-- tenacity's `wait_exponential(multiplier, max, exp_base=2, min)` wait
strategy (third-party collaborator, modelled from its source): the wait
before the retry following attempt number `attempt` is
`max(max(0, min), min(multiplier * 2^(attempt-1), max))`, in seconds. -/
def wait_exponential (multiplier mn mx attempt : Nat) : Nat :=
  max (max 0 mn) (min (multiplier * 2 ^ (attempt - 1)) mx)

/-- The wait strategy configured on `assert_isvc_created` in
`get_served_model_url`: `wait_exponential(multiplier=2, min=1, max=10)`. -/
def assertWait (attempt : Nat) : Nat := wait_exponential 2 1 10 attempt

/-- tenacity's retry driver with `stop_after_attempt` budget and
`reraise=True` (third-party collaborator, modelled from its source),
specialised to the retried body of `get_served_model_url`, whose single
observable effect per attempt is one `is_isvc_ready` probe.  `ready k`
is the outcome of the probe issued by attempt number `k`; attempts are
numbered from `attempt` and at most `budget` attempts are issued.
Returns (number of probes issued, waits slept between attempts, whether
the body eventually succeeded). -/
def retryProbe (ready : Nat → Bool) : Nat → Nat → Nat × List Nat × Bool
  | 0, _ => (0, [], false)
  | 1, attempt => (1, [], ready attempt)
  | budget + 2, attempt =>
    if ready attempt then (1, [], true)
    else
      ((retryProbe ready (budget + 1) (attempt + 1)).1 + 1,
        assertWait attempt :: (retryProbe ready (budget + 1) (attempt + 1)).2.1,
        (retryProbe ready (budget + 1) (attempt + 1)).2.2)

/-- `get_served_model_url(isvc_name)`: poll `is_isvc_ready` under the
retry policy `wait_exponential(multiplier=2, min=1, max=10)`,
`stop_after_attempt(30)`, `reraise=True`; on success fetch and return
the service's address URL (`kclient.get(...)["status"]["address"]["url"]`,
modelled by the oracle `addr`); on budget exhaustion re-raise the last
attempt's `AssertionError`, whose message names the inference service.
Returns (probes issued, waits slept, result). -/
def get_served_model_url (ready : Nat → Bool) (addr : String → String)
    (isvc_name : String) : Nat × List Nat × Except String String :=
  match retryProbe ready 30 1 with
  | (probes, sleeps, ok) =>
    (probes, sleeps,
      if ok then Except.ok (addr isvc_name)
      else Except.error ("Failed to create Inference Service " ++ isvc_name ++ "."))

/-- `is_run_finished`: the gating predicate of the run-polling loop —
a status string is terminal when it is one of the four listed states. -/
def is_run_finished (status : String) : Bool :=
  ["Succeeded", "Failed", "Skipped", "Error"].contains status

/-- The handle returned by pipeline submission; `status` is the status
snapshot carried by the handle at submission time. -/
structure RunDetails where
  run_id : String
  status : String
deriving DecidableEq, Repr

/-- The polling loop of `create_run_from_pipeline_func`: while
`is_run_finished(run_id)` is false (one status query), fetch the status
again (`get_run_status`, a second query), print it, and sleep one fixed
`TIMER_IN_SEC` interval.  `statuses i` is the orchestrator's answer to
the `i`-th status query (queries counted from 0).  Returns, within
`fuel` loop iterations, `(total queries issued, statuses printed,
sleeps performed)`. -/
def runPollLoop (statuses : Nat → String) : Nat → Nat → Option (Nat × List String × Nat)
  | 0, _ => none
  | fuel + 1, q =>
    if is_run_finished (statuses q) then some (q + 1, [], 0)
    else
      match runPollLoop statuses fuel (q + 2) with
      | none => none
      | some (tot, printed, sleeps) =>
        some (tot, statuses (q + 1) :: printed, sleeps + 1)

/-- `create_run_from_pipeline_func` (polling part): submit, then poll
until the gating query observes a terminal status, then return the
submission handle `run_details` unchanged. -/
def create_run_from_pipeline_func (run_details : RunDetails)
    (statuses : Nat → String) (fuel : Nat) :
    Option ((Nat × List String × Nat) × RunDetails) :=
  (runPollLoop statuses fuel 0).map (fun r => (r, run_details))

/-- A `kubernetes.client.exceptions.ApiException`: HTTP status plus
message.  Status 409 (Conflict) is the benign "already exists" case. -/
structure ApiException where
  httpStatus : Nat
  msg : String
deriving DecidableEq, Repr

/-- A Python exception escaping the Kubernetes deletion call: either an
`ApiException` or an exception of any other class. -/
inductive PyError
  | apiExc (e : ApiException)
  | otherExc (m : String)
deriving DecidableEq, Repr

/-- `create_service(name)`: define the V1Service spec and call
`create_namespaced_service` (modelled by the oracle `createNS`); on
success return the service name; on any `ApiException` — the 409
"already exists" conflict included — raise
`RuntimeError(f"Exception when creating service: {e}")`. -/
def create_service (createNS : String → Except ApiException Unit)
    (name : String) : Except String String :=
  match createNS name with
  | Except.ok _ => Except.ok name
  | Except.error e =>
    Except.error ("Exception when creating service: " ++ e.msg)

/-- `delete_service(name)`: call `delete_namespaced_service` (modelled
by the oracle `deleteNS`); an `ApiException` is caught, printed and
swallowed; any other exception class propagates.  Returns the printed
log lines and the overall outcome. -/
def delete_service (deleteNS : String → Except PyError Unit)
    (name : String) : List String × Except PyError Unit :=
  match deleteNS name with
  | Except.ok _ =>
    (["Service " ++ name ++ " deleted successfully"], Except.ok ())
  | Except.error (PyError.apiExc e) =>
    (["Exception when deleting service: " ++ e.msg], Except.ok ())
  | Except.error (PyError.otherExc m) =>
    ([], Except.error (PyError.otherExc m))

/-- A client callable declaring only its required parameters. -/
def clientMinimalSig : Sig :=
  [⟨"server_address", ParamKind.positionalOrKeyword, none, some PyObj.pyStr⟩,
   ⟨"local_data_connector", ParamKind.positionalOrKeyword, none, none⟩]

/-- A server callable declaring only its required parameter. -/
def serverMinimalSig : Sig :=
  [⟨"number_of_iterations", ParamKind.positionalOrKeyword, none, some PyObj.pyInt⟩]

/-- A client callable additionally declaring the extra `lr`. -/
def clientLrSig : Sig :=
  clientMinimalSig ++ [⟨"lr", ParamKind.positionalOrKeyword, none, some PyObj.pyStr⟩]

/-- A server callable additionally declaring the extra `epochs`. -/
def serverEpochsSig : Sig :=
  serverMinimalSig ++ [⟨"epochs", ParamKind.positionalOrKeyword, none, some PyObj.pyInt⟩]

/-- A server callable that declares, as its own extra, a parameter named
like the client's required parameter `server_address`, with a default. -/
def serverShadowSig : Sig :=
  [⟨"number_of_iterations", ParamKind.positionalOrKeyword, none, some PyObj.pyInt⟩,
   ⟨"server_address", ParamKind.positionalOrKeyword, some (PyObj.lit "h:1"), some PyObj.pyStr⟩]

section Lemmas

/-- `List.contains` agrees with membership on strings. -/
theorem contains_mem {l : List String} {x : String} :
    l.contains x = true ↔ x ∈ l := by
  simp [List.contains, List.elem_iff]

/-- Membership in the `dict.fromkeys` loop output: exactly the input
elements that were not already seen. -/
theorem fromkeys_loop_mem (x : String) :
    ∀ (l seen : List String), x ∈ fromkeys_loop seen l ↔ x ∈ l ∧ ¬ x ∈ seen := by
  intro l
  induction l with
  | nil => intro seen; simp [fromkeys_loop]
  | cons y ys ih =>
    intro seen
    by_cases hy : seen.contains y
    · rw [fromkeys_loop, if_pos hy, ih]
      constructor
      · rintro ⟨hx, hns⟩
        exact ⟨List.mem_cons_of_mem _ hx, hns⟩
      · rintro ⟨hx, hns⟩
        rcases List.mem_cons.mp hx with rfl | hx
        · exact absurd (contains_mem.mp hy) hns
        · exact ⟨hx, hns⟩
    · rw [fromkeys_loop, if_neg hy]
      constructor
      · intro hx
        rcases List.mem_cons.mp hx with rfl | hx
        · exact ⟨List.mem_cons_self _ _,
            fun hc => hy (contains_mem.mpr hc)⟩
        · rcases (ih (y :: seen)).mp hx with ⟨hmem, hns⟩
          refine ⟨List.mem_cons_of_mem _ hmem, fun hc => hns (List.mem_cons_of_mem _ hc)⟩
      · rintro ⟨hx, hns⟩
        rcases List.mem_cons.mp hx with rfl | hx
        · exact List.mem_cons_self _ _
        · by_cases hxy : x = y
          · subst hxy; exact List.mem_cons_self _ _
          · exact List.mem_cons_of_mem _ ((ih (y :: seen)).mpr
              ⟨hx, fun hc => by
                rcases List.mem_cons.mp hc with h | h
                · exact hxy h
                · exact hns h⟩)

/-- The `dict.fromkeys` loop output has no duplicates. -/
theorem fromkeys_loop_nodup :
    ∀ (l seen : List String), (fromkeys_loop seen l).Nodup := by
  intro l
  induction l with
  | nil => intro seen; simp [fromkeys_loop]
  | cons y ys ih =>
    intro seen
    by_cases hy : seen.contains y
    · rw [fromkeys_loop, if_pos hy]; exact ih seen
    · rw [fromkeys_loop, if_neg hy]
      refine List.nodup_cons.mpr ⟨fun hmem => ?_, ih (y :: seen)⟩
      exact ((fromkeys_loop_mem y ys (y :: seen)).mp hmem).2 (List.mem_cons_self _ _)

/-- Membership in `dedupKeepFirst` is membership in the input. -/
theorem dedupKeepFirst_mem (x : String) (l : List String) :
    x ∈ dedupKeepFirst l ↔ x ∈ l := by
  rw [dedupKeepFirst, fromkeys_loop_mem]
  simp

/-- `dedupKeepFirst` has no duplicates. -/
theorem dedupKeepFirst_nodup (l : List String) : (dedupKeepFirst l).Nodup :=
  fromkeys_loop_nodup l []

/-- Unfolding a successful `pipeline_sig`. -/
theorem pipeline_sig_ok {c s : Sig} {ps : List Param}
    (h : pipeline_sig c s = Except.ok ps) :
    ps = sig_params c s ∧ signatureOk (sig_params c s) = true := by
  by_cases hok : signatureOk (sig_params c s)
  · rw [pipeline_sig] at h
    simp only [hok, if_true] at h
    exact ⟨(Except.ok.injEq _ _).mp h.symm |>.symm ▸ rfl, hok⟩
  · rw [pipeline_sig] at h
    simp only [hok, if_false] at h
    exact absurd h (by simp)

/-- Shifting a map over `List.range` by one position. -/
theorem map_range_shift {α : Type} (g : Nat → α) (n a : Nat) :
    g a :: (List.range n).map (fun i => g (a + 1 + i)) =
      (List.range (n + 1)).map (fun i => g (a + i)) := by
  rw [List.range_succ_eq_map, List.map_cons, List.map_map]
  congr 1
  refine List.map_congr_left (fun i _ => ?_)
  show g (a + 1 + i) = g (a + (i + 1))
  congr 1
  omega

/-- The wait configured in `get_served_model_url` after attempt `i + 1`
equals the specification's `min(base * 2^(attempt-1), max_wait)` with
base 2 and max wait 10: the lower clamp at 1 never bites because the
un-clamped wait is at least 2. -/
theorem assertWait_eq (i : Nat) : assertWait (i + 1) = min (2 * 2 ^ i) 10 := by
  rw [assertWait, wait_exponential]
  have h1 : i + 1 - 1 = i := by omega
  rw [h1]
  have h2 : 1 ≤ 2 ^ i := Nat.one_le_two_pow
  have h4 : 1 ≤ min (2 * 2 ^ i) 10 := le_min (by omega) (by omega)
  rw [Nat.zero_max]
  exact max_eq_right h4

/-- The configured waits are non-decreasing in the attempt number. -/
theorem assertWait_mono {i j : Nat} (h : i ≤ j) :
    assertWait (i + 1) ≤ assertWait (j + 1) := by
  rw [assertWait_eq, assertWait_eq]
  have hpow : 2 ^ i ≤ 2 ^ j := Nat.pow_le_pow_right (by omega) h
  exact min_le_min (by omega) (le_refl 10)

/-- The configured waits are bounded above by the max wait of 10. -/
theorem assertWait_le (i : Nat) : assertWait (i + 1) ≤ 10 := by
  rw [assertWait_eq]
  exact min_le_right _ _

/-- `retryProbe` when the probe first succeeds at attempt `k` within the
budget: exactly `k - a + 1` probes are issued (attempts `a` to `k`) and
the waits slept are those configured after attempts `a, ..., k - 1`. -/
theorem retryProbe_success (ready : Nat → Bool) :
    ∀ (b a k : Nat), a ≤ k → k < a + b →
      (∀ j, a ≤ j → j < k → ready j = false) → ready k = true →
      retryProbe ready b a =
        (k - a + 1, (List.range (k - a)).map (fun i => assertWait (a + i)), true) := by
  intro b
  induction b with
  | zero => intro a k h1 h2 _ _; omega
  | succ b ih =>
    intro a k h1 h2 hprev hk
    cases b with
    | zero =>
      have hak : k = a := by omega
      subst hak
      simp only [retryProbe]
      rw [hk, Nat.sub_self]
      rfl
    | succ b'' =>
      by_cases hak : a = k
      · subst hak
        simp only [retryProbe]
        rw [hk, if_pos rfl, Nat.sub_self]
        rfl
      · have halt : a < k := by omega
        have hra : ready a = false := hprev a (Nat.le_refl a) halt
        have hrec := ih (a + 1) k (by omega) (by omega)
          (fun j hj1 hj2 => hprev j (by omega) hj2) hk
        simp only [retryProbe]
        rw [hra, if_neg Bool.false_ne_true, hrec]
        have hn : k - (a + 1) + 1 + 1 = k - a + 1 := by omega
        have hl : assertWait a :: (List.range (k - (a + 1))).map
            (fun i => assertWait (a + 1 + i)) =
            (List.range (k - a)).map (fun i => assertWait (a + i)) := by
          have hsh := map_range_shift assertWait (k - (a + 1)) a
          rwa [show k - (a + 1) + 1 = k - a by omega] at hsh
        show (k - (a + 1) + 1 + 1,
          assertWait a :: (List.range (k - (a + 1))).map (fun i => assertWait (a + 1 + i)),
          true) = _
        rw [hn, hl]

/-- `retryProbe` when the probe never succeeds within the budget: all
`b` attempts are issued, `b - 1` waits are slept, and the body fails. -/
theorem retryProbe_fail (ready : Nat → Bool) :
    ∀ (b a : Nat), (∀ j, a ≤ j → j < a + b → ready j = false) →
      retryProbe ready b a =
        (b, (List.range (b - 1)).map (fun i => assertWait (a + i)), false) := by
  intro b
  induction b with
  | zero => intro a _; rfl
  | succ b ih =>
    intro a h
    have hra : ready a = false := h a (Nat.le_refl a) (by omega)
    cases b with
    | zero =>
      simp only [retryProbe]
      rw [hra]
      rfl
    | succ b'' =>
      have hrec := ih (a + 1) (fun j hj1 hj2 => h j (by omega) (by omega))
      simp only [retryProbe]
      rw [hra, if_neg Bool.false_ne_true, hrec]
      have hl : assertWait a :: (List.range (b'' + 1 - 1)).map
          (fun i => assertWait (a + 1 + i)) =
          (List.range (b'' + 1)).map (fun i => assertWait (a + i)) := by
        have hsh := map_range_shift assertWait b'' a
        simpa using hsh
      show (b'' + 1 + 1,
        assertWait a :: (List.range (b'' + 1 - 1)).map (fun i => assertWait (a + 1 + i)),
        false) = _
      rw [hl]
      rfl

/-- Prepending the head to a shifted map over `List.range`. -/
theorem map_range_succ {α : Type} (g : Nat → α) (n : Nat) :
    g 0 :: (List.range n).map (fun i => g (i + 1)) = (List.range (n + 1)).map g := by
  rw [List.range_succ_eq_map, List.map_cons, List.map_map]
  rfl

/-- Characterisation of a terminating run of the polling loop: `sleeps`
non-terminal iterations (each issuing a gating query at an even index
and a reporting query at the following odd index, then sleeping once)
followed by one final gating query that observed a terminal status. -/
theorem runPollLoop_spec (statuses : Nat → String) :
    ∀ (fuel q0 tot : Nat) (printed : List String) (sleeps : Nat),
      runPollLoop statuses fuel q0 = some (tot, printed, sleeps) →
      tot = q0 + 2 * sleeps + 1 ∧
      is_run_finished (statuses (q0 + 2 * sleeps)) = true ∧
      (∀ i, i < sleeps → is_run_finished (statuses (q0 + 2 * i)) = false) ∧
      printed = (List.range sleeps).map (fun i => statuses (q0 + 2 * i + 1)) := by
  intro fuel
  induction fuel with
  | zero =>
    intro q0 tot printed sleeps h
    exact absurd h (by simp [runPollLoop])
  | succ fuel ih =>
    intro q0 tot printed sleeps h
    simp only [runPollLoop] at h
    by_cases hf : is_run_finished (statuses q0) = true
    · rw [if_pos hf] at h
      simp only [Option.some.injEq, Prod.mk.injEq] at h
      obtain ⟨rfl, rfl, rfl⟩ := h
      refine ⟨by omega, ?_, by omega, by simp⟩
      have e : q0 + 2 * 0 = q0 := by omega
      rw [e]
      exact hf
    · rw [if_neg hf] at h
      cases hrec : runPollLoop statuses fuel (q0 + 2) with
      | none =>
        rw [hrec] at h
        have h' : (none : Option (Nat × List String × Nat)) =
          some (tot, printed, sleeps) := h
        exact absurd h' (by simp)
      | some r =>
        obtain ⟨tot', printed', sleeps'⟩ := r
        rw [hrec] at h
        have h' : (some (tot', statuses (q0 + 1) :: printed', sleeps' + 1) :
          Option (Nat × List String × Nat)) = some (tot, printed, sleeps) := h
        simp only [Option.some.injEq, Prod.mk.injEq] at h'
        obtain ⟨rfl, rfl, rfl⟩ := h'
        obtain ⟨h1, h2, h3, h4⟩ := ih (q0 + 2) tot' printed' sleeps' hrec
        refine ⟨by omega, ?_, ?_, ?_⟩
        · have e : q0 + 2 * (sleeps' + 1) = q0 + 2 + 2 * sleeps' := by omega
          rw [e]
          exact h2
        · intro i hi
          cases i with
          | zero =>
            have e : q0 + 2 * 0 = q0 := by omega
            rw [e]
            cases hb : is_run_finished (statuses q0)
            · rfl
            · exact absurd hb hf
          | succ i' =>
            have e : q0 + 2 * (i' + 1) = q0 + 2 + 2 * i' := by omega
            rw [e]
            exact h3 i' (by omega)
        · rw [h4]
          have hg0 : statuses (q0 + 1) = statuses (q0 + 2 * 0 + 1) := by
            congr 1
          have hgt : (fun i => statuses (q0 + 2 + 2 * i + 1)) =
              (fun i => statuses (q0 + 2 * (i + 1) + 1)) := by
            funext i
            congr 1
            omega
          rw [hg0, hgt]
          exact map_range_succ (fun i => statuses (q0 + 2 * i + 1)) sleeps'

/-- The polling loop cannot fail when some gating query within the fuel
bound observes a terminal status. -/
theorem runPollLoop_total (statuses : Nat → String) :
    ∀ (fuel q0 : Nat),
      (∃ n, n < fuel ∧ is_run_finished (statuses (q0 + 2 * n)) = true) →
      (runPollLoop statuses fuel q0).isSome = true := by
  intro fuel
  induction fuel with
  | zero =>
    rintro q0 ⟨n, hn, _⟩
    omega
  | succ fuel ih =>
    rintro q0 ⟨n, hn, hfin⟩
    by_cases hf : is_run_finished (statuses q0) = true
    · simp only [runPollLoop, if_pos hf]
      rfl
    · have hn0 : n ≠ 0 := by
        intro h0
        subst h0
        have e : q0 + 2 * 0 = q0 := by omega
        rw [e] at hfin
        exact hf hfin
      obtain ⟨n', rfl⟩ : ∃ n', n = n' + 1 := ⟨n - 1, by omega⟩
      have hrec := ih (q0 + 2) ⟨n', by omega, by
        have e : q0 + 2 + 2 * n' = q0 + 2 * (n' + 1) := by omega
        rw [e]
        exact hfin⟩
      simp only [runPollLoop, if_neg hf]
      cases hcase : runPollLoop statuses fuel (q0 + 2) with
      | none =>
        rw [hcase] at hrec
        exact absurd hrec (by simp)
      | some r =>
        obtain ⟨a, b, c⟩ := r
        rfl

/-- The name of a merged extra parameter is the extra name itself. -/
theorem mkExtraParam_name (c s : Sig) (n : String) :
    (mkExtraParam c s n).name = n := rfl

/-- The name list of the produced pipeline signature. -/
theorem sig_params_names (c s : Sig) :
    (sig_params c s).map Param.name = "number_of_iterations" :: extra_params c s := by
  rw [sig_params, List.map_cons, List.map_map]
  have : (Param.name ∘ mkExtraParam c s) = fun n => n := by
    funext n; rfl
  rw [this, List.map_id']
  rfl

/-- `List.contains` agrees with membership on naturals. -/
theorem contains_mem_nat {l : List Nat} {x : Nat} :
    l.contains x = true ↔ x ∈ l := by
  simp [List.contains, List.elem_iff]

/-- Every built client task is `clientTaskFor` of its indexed connector. -/
theorem clientTasks_mem {cs : Sig} {enf : Bool} {conns : List Connector} {t : Task}
    (h : t ∈ clientTasks cs enf conns) :
    ∃ ic ∈ conns.enum, t = clientTaskFor cs enf ic.1 ic.2 := by
  rcases List.mem_map.mp h with ⟨ic, hic, rfl⟩
  exact ⟨ic, hic, rfl⟩

/-- The ids of the built client tasks, in order. -/
theorem clientTasks_ids (cs : Sig) (enf : Bool) (conns : List Connector) :
    (clientTasks cs enf conns).map Task.id = List.range' 3 conns.length := by
  rw [clientTasks, List.map_map]
  have h1 : (Task.id ∘ fun ic : Nat × Connector => clientTaskFor cs enf ic.1 ic.2) =
      (fun n => 3 + n) ∘ Prod.fst := by
    funext ic; rfl
  rw [h1, ← List.map_map, List.enum_eq_enumFrom, List.enumFrom_map_fst]
  have h2 := List.map_add_range' 3 0 conns.length 1
  simp only [Nat.add_zero] at h2
  exact h2

/-- Folding `ranTasks` over tasks that are all ordered after the setup
task: they all execute when the setup task has executed successfully,
and none executes otherwise. -/
theorem ranTasks_after_setup (oc : Nat → Outcome) :
    ∀ (ts : List Task) (acc : List Nat),
      (∀ t ∈ ts, t.afterDeps = [setupTaskId]) →
      ranTasks oc ts acc =
        if acc.contains setupTaskId && decide (oc setupTaskId = Outcome.success)
        then acc ++ ts.map Task.id else acc := by
  intro ts
  induction ts with
  | nil =>
    intro acc _
    by_cases hc : acc.contains setupTaskId && decide (oc setupTaskId = Outcome.success) <;>
      simp [ranTasks, hc]
  | cons t ts ih =>
    intro acc h
    have ht : t.afterDeps = [setupTaskId] := h t (List.mem_cons_self _ _)
    rw [ranTasks, ht]
    have hcond : List.all [setupTaskId]
        (fun d => acc.contains d && decide (oc d = Outcome.success)) =
        (acc.contains setupTaskId && decide (oc setupTaskId = Outcome.success)) := by
      simp [List.all_cons]
    rw [hcond]
    by_cases hc : acc.contains setupTaskId && decide (oc setupTaskId = Outcome.success)
    · rw [if_pos hc, if_pos hc, ih (acc ++ [t.id]) (fun u hu => h u (List.mem_cons_of_mem _ hu))]
      have hc' : ((acc ++ [t.id]).contains setupTaskId &&
          decide (oc setupTaskId = Outcome.success)) = true := by
        rcases (Bool.and_eq_true _ _).mp hc with ⟨h1, h2⟩
        refine (Bool.and_eq_true _ _).mpr ⟨?_, h2⟩
        exact contains_mem_nat.mpr (List.mem_append_left _ (contains_mem_nat.mp h1))
      rw [if_pos hc', List.map_cons, List.append_assoc]
      rfl
    · rw [if_neg hc, if_neg hc, ih acc (fun u hu => h u (List.mem_cons_of_mem _ hu)), if_neg hc]

/-- The body of the composed graph (its tasks minus the exit handler):
the setup task, the server task and the client tasks. -/
theorem fl_body_filter (cs ss : Sig) (conns : List Connector) (enf : Bool) :
    (fl_pipeline_func cs ss conns enf).tasks.filter
        (fun t => !((fl_pipeline_func cs ss conns enf).exitHandler == some t.id)) =
      setup_task :: server_task ss :: clientTasks cs enf conns := by
  have hcl : (clientTasks cs enf conns).filter
      (fun t => !((fl_pipeline_func cs ss conns enf).exitHandler == some t.id)) =
      clientTasks cs enf conns := by
    refine List.filter_eq_self.mpr (fun t ht => ?_)
    rcases clientTasks_mem ht with ⟨ic, _, rfl⟩
    have hid : (clientTaskFor cs enf ic.1 ic.2).id = 3 + ic.1 := rfl
    have hex : (fl_pipeline_func cs ss conns enf).exitHandler = some cleanupTaskId := rfl
    rw [hex, hid]
    simp [cleanupTaskId]
    omega
  have hstep : (fl_pipeline_func cs ss conns enf).tasks.filter
      (fun t => !((fl_pipeline_func cs ss conns enf).exitHandler == some t.id)) =
      setup_task :: server_task ss :: (clientTasks cs enf conns).filter
        (fun t => !((fl_pipeline_func cs ss conns enf).exitHandler == some t.id)) := rfl
  rw [hstep, hcl]

/-- The client tasks of the composed graph are exactly `clientTasks`. -/
theorem fl_clients_filter (cs ss : Sig) (conns : List Connector) (enf : Bool) :
    (fl_pipeline_func cs ss conns enf).tasks.filter
      (fun t => decide (t.kind = TaskKind.client)) = clientTasks cs enf conns := by
  have hstep : (fl_pipeline_func cs ss conns enf).tasks.filter
      (fun t => decide (t.kind = TaskKind.client)) =
      (clientTasks cs enf conns).filter
        (fun t => decide (t.kind = TaskKind.client)) := rfl
  rw [hstep]
  refine List.filter_eq_self.mpr (fun t ht => ?_)
  rcases clientTasks_mem ht with ⟨ic, _, rfl⟩
  rfl

/-- The `i`-th client task of the composed graph. -/
theorem fl_clients_getElem (cs ss : Sig) (conns : List Connector) (enf : Bool)
    (i : Nat) (h : i < conns.length) :
    ((fl_pipeline_func cs ss conns enf).tasks.filter
        (fun t => decide (t.kind = TaskKind.client)))[i]? =
      some (clientTaskFor cs enf i (conns.get ⟨i, h⟩)) := by
  rw [fl_clients_filter, clientTasks, List.getElem?_map, List.getElem?_enum,
    List.getElem?_eq_getElem h]
  rfl

/-- The execution trace of the composed graph, for every outcome
assignment: the setup task always starts; when it succeeds, the server
task and all client tasks run after it (none of them runs otherwise);
the teardown task runs exactly once at the end in either case. -/
theorem execTrace_fl (cs ss : Sig) (conns : List Connector) (enf : Bool)
    (oc : Nat → Outcome) :
    execTrace (fl_pipeline_func cs ss conns enf) oc =
      if oc setupTaskId = Outcome.success
      then [setupTaskId, serverTaskId] ++ List.range' 3 conns.length ++ [cleanupTaskId]
      else [setupTaskId, cleanupTaskId] := by
  have hdeps : ∀ t ∈ clientTasks cs enf conns, t.afterDeps = [setupTaskId] := by
    intro t ht
    rcases clientTasks_mem ht with ⟨ic, _, rfl⟩
    rfl
  have hmain : execTrace (fl_pipeline_func cs ss conns enf) oc =
      ranTasks oc (setup_task :: server_task ss :: clientTasks cs enf conns) [] ++
        [cleanupTaskId] := by
    rw [execTrace]
    rw [fl_body_filter]
    rfl
  rw [hmain]
  have hsetup : ranTasks oc (setup_task :: server_task ss :: clientTasks cs enf conns) [] =
      ranTasks oc (server_task ss :: clientTasks cs enf conns) [setupTaskId] := rfl
  rw [hsetup, ranTasks]
  have hcond : List.all (server_task ss).afterDeps
      (fun d => List.contains [setupTaskId] d && decide (oc d = Outcome.success)) =
      decide (oc setupTaskId = Outcome.success) := by
    show List.all [setupTaskId] _ = _
    simp [List.all_cons]
  rw [hcond]
  by_cases h : oc setupTaskId = Outcome.success
  · rw [if_pos h]
    simp only [h, decide_True, if_true]
    rw [ranTasks_after_setup oc (clientTasks cs enf conns) _ hdeps]
    have hc : (([setupTaskId] ++ [(server_task ss).id]).contains setupTaskId &&
        decide (oc setupTaskId = Outcome.success)) = true := by
      simp [h]
    rw [if_pos hc, clientTasks_ids]
    show ([setupTaskId] ++ [serverTaskId]) ++ List.range' 3 conns.length ++ [cleanupTaskId] = _
    simp [List.append_assoc]
  · rw [if_neg h]
    have hdec : decide (oc setupTaskId = Outcome.success) = false := decide_eq_false h
    rw [hdec, if_neg Bool.false_ne_true]
    rw [ranTasks_after_setup oc (clientTasks cs enf conns) _ hdeps]
    have hc : (List.contains [setupTaskId] setupTaskId &&
        decide (oc setupTaskId = Outcome.success)) = false := by
      simp [hdec]
    rw [if_neg (by rw [hc]; exact Bool.false_ne_true)]
    rfl

end Lemmas

/-- Claim C1 is false as stated: take a client declaring exactly its
required parameters (`server_address` without a default) and a server
declaring the extra `server_address` with default `"h:1"`.  The only
merged extra first occurs as a server extra, so the claim requires the
server's declared default to be kept; `create_fl_pipeline` instead looks
the name up in the client's parameter mapping first and keeps the
client's declaration, dropping the default. -/
theorem c1_counterexample :
    pipeline_sig clientMinimalSig serverShadowSig =
      Except.ok (sig_params clientMinimalSig serverShadowSig) ∧
    (sig_params clientMinimalSig serverShadowSig).map (fun p => (p.name, p.dflt)) =
      [("number_of_iterations", none), ("server_address", none)] ∧
    specMergedSig clientMinimalSig serverShadowSig ≠
      sig_params clientMinimalSig serverShadowSig := by
  refine ⟨rfl, by decide, by decide⟩

/-- Claim C1 (amended): whenever signature construction succeeds, the
merged pipeline signature is the fixed required parameter
`number_of_iterations` (annotated `int`, no default) first, followed by
the de-duplicated concatenation of client-extras then server-extras
(positional-or-keyword and keyword-only parameters minus the role's
required set, variadics excluded), keeping the first occurrence of each
name; each merged extra takes the default and annotation of the client's
declaration of that name whenever the client's signature declares it (in
any parameter kind, required parameters included), and of the server's
declaration otherwise. -/
theorem c1_merged_signature (c s : Sig) (ps : List Param)
    (h : pipeline_sig c s = Except.ok ps) :
    ps.map Param.name = "number_of_iterations" :: extra_params c s ∧
    ps.head? = some numberOfIterationsParam ∧
    (ps.map Param.name).Nodup ∧
    (∀ n, n ∈ extra_params c s ↔
      (n ∈ clientExtraNames c ∨ n ∈ serverExtraNames s)) ∧
    (∀ n q p, n ∈ extra_params c s →
      (sigGet c n = some q ∨ (sigGet c n = none ∧ sigGet s n = some q)) →
      p ∈ ps → p.name = n →
      p = ⟨n, ParamKind.positionalOrKeyword, q.dflt, some (q.ann.getD PyObj.pyNone)⟩) := by
  obtain ⟨hps, hok⟩ := pipeline_sig_ok h
  subst hps
  have hnames := sig_params_names c s
  have hnodup : ((sig_params c s).map Param.name).Nodup := by
    have := (Bool.and_eq_true _ _).mp hok
    exact of_decide_eq_true this.1
  refine ⟨hnames, rfl, hnodup, ?_, ?_⟩
  · intro n
    rw [extra_params, dedupKeepFirst_mem, List.mem_append]
  · intro n q p hn hq hp hpn
    have hchosen : ((sigGet c n).orElse (fun _ => sigGet s n)) = some q := by
      rcases hq with hq | ⟨hc, hs⟩
      · rw [hq]; rfl
      · rw [hc, hs]; rfl
    have hnum : n ≠ "number_of_iterations" := by
      intro hcontra
      rw [hnames] at hnodup
      exact (List.nodup_cons.mp hnodup).1 (hcontra ▸ hn)
    rw [sig_params] at hp
    rcases List.mem_cons.mp hp with rfl | hp
    · exact absurd (hpn.symm) (fun hcontra => hnum hcontra)
    · rcases List.mem_map.mp hp with ⟨m, _, rfl⟩
      have hmn : m = n := hpn
      subst hmn
      rw [mkExtraParam, hchosen]
      rfl

/-- Claim C2: in every composed graph the teardown task — the release of
the run-scoped service, invoked with the same `srv_name` the setup task
created — is the exit handler of the scope holding the server and client
tasks, and under every outcome assignment (success, failure or
cancellation of any task) it executes exactly once per graph run, as the
last event of the execution trace: never skipped, and never scheduled
before the server and client tasks have reached terminal states. -/
theorem c2_teardown_exactly_once (cs ss : Sig) (conns : List Connector)
    (enf : Bool) (oc : Nat → Outcome) :
    (fl_pipeline_func cs ss conns enf).exitHandler = some cleanup_task.id ∧
    cleanup_task.kind = TaskKind.teardown ∧
    cleanup_task.args = [("name", ArgSource.constStr srv_name)] ∧
    (∀ t ∈ (fl_pipeline_func cs ss conns enf).tasks,
      (t.kind = TaskKind.server ∨ t.kind = TaskKind.client) → t.inExitScope = true) ∧
    (execTrace (fl_pipeline_func cs ss conns enf) oc).count cleanupTaskId = 1 ∧
    (execTrace (fl_pipeline_func cs ss conns enf) oc).getLast? = some cleanupTaskId := by
  refine ⟨rfl, rfl, rfl, ?_, ?_, ?_⟩
  · intro t ht hk
    rcases List.mem_cons.mp ht with rfl | ht
    · rcases hk with h | h <;> exact absurd h (by decide)
    rcases List.mem_cons.mp ht with rfl | ht
    · rcases hk with h | h <;> exact absurd h (by decide)
    rcases List.mem_cons.mp ht with rfl | ht
    · rfl
    · rcases clientTasks_mem ht with ⟨ic, _, rfl⟩
      rfl
  · rw [execTrace_fl]
    by_cases h : oc setupTaskId = Outcome.success
    · rw [if_pos h]
      have hnr : cleanupTaskId ∉ List.range' 3 conns.length := by
        intro hmem
        rcases List.mem_range'.mp hmem with ⟨i, _, hi⟩
        rw [cleanupTaskId] at hi
        omega
      rw [List.count_append, List.count_append,
        List.count_eq_zero_of_not_mem hnr]
      decide
    · rw [if_neg h]
      decide
  · rw [execTrace_fl]
    by_cases h : oc setupTaskId = Outcome.success
    · rw [if_pos h, List.getLast?_concat]
    · rw [if_neg h]
      rfl

/-- Claim C3: for every connector list of length `N`, the composed graph
has exactly `N` client tasks, created in the connector list's order
(their `local_data_connector` arguments are the connectors' links in
order), exactly one setup, one server and one teardown task; the server
task and every client task carry the explicit ordering dependency on the
setup task, the exit scope contains exactly the server and client tasks,
and in every execution the teardown task runs exactly once, after all
executed tasks, while the server and client tasks execute only when the
setup task succeeded. -/
theorem c3_graph_shape (cs ss : Sig) (conns : List Connector) (enf : Bool) :
    ((fl_pipeline_func cs ss conns enf).tasks.filter
      (fun t => decide (t.kind = TaskKind.client))).length = conns.length ∧
    ((fl_pipeline_func cs ss conns enf).tasks.filter
      (fun t => decide (t.kind = TaskKind.client))).map
        (fun t => List.lookup "local_data_connector" t.args) =
      conns.map (fun c => some (ArgSource.const c.link)) ∧
    ((fl_pipeline_func cs ss conns enf).tasks.filter
      (fun t => decide (t.kind = TaskKind.setup))).map Task.id = [setupTaskId] ∧
    ((fl_pipeline_func cs ss conns enf).tasks.filter
      (fun t => decide (t.kind = TaskKind.server))).map Task.id = [serverTaskId] ∧
    ((fl_pipeline_func cs ss conns enf).tasks.filter
      (fun t => decide (t.kind = TaskKind.teardown))).map Task.id = [cleanupTaskId] ∧
    (∀ t ∈ (fl_pipeline_func cs ss conns enf).tasks,
      (t.kind = TaskKind.server ∨ t.kind = TaskKind.client) →
        t.afterDeps = [setupTaskId]) ∧
    (∀ t ∈ (fl_pipeline_func cs ss conns enf).tasks,
      t.inExitScope = true ↔ (t.kind = TaskKind.server ∨ t.kind = TaskKind.client)) ∧
    (∀ oc : Nat → Outcome,
      execTrace (fl_pipeline_func cs ss conns enf) oc =
        if oc setupTaskId = Outcome.success
        then [setupTaskId, serverTaskId] ++ List.range' 3 conns.length ++ [cleanupTaskId]
        else [setupTaskId, cleanupTaskId]) := by
  have hclientsfilter := fl_clients_filter cs ss conns enf
  have hclientnk : ∀ (k : TaskKind), k ≠ TaskKind.client →
      (clientTasks cs enf conns).filter (fun t => decide (t.kind = k)) = [] := by
    intro k hk
    refine List.filter_eq_nil_iff.mpr (fun t ht => ?_)
    rcases clientTasks_mem ht with ⟨ic, _, rfl⟩
    simp only [decide_eq_true_eq]
    intro hcontra
    exact hk (by rw [← hcontra]; rfl)
  refine ⟨?_, ?_, ?_, ?_, ?_, ?_, ?_, execTrace_fl cs ss conns enf⟩
  · rw [hclientsfilter, clientTasks, List.length_map, List.enum_eq_enumFrom,
      List.enumFrom_length]
  · rw [hclientsfilter, clientTasks, List.map_map]
    have h1 : ((fun t => List.lookup "local_data_connector" t.args) ∘
        fun ic : Nat × Connector => clientTaskFor cs enf ic.1 ic.2) =
        (fun c => some (ArgSource.const c.link)) ∘ Prod.snd := by
      funext ic
      rfl
    rw [h1, ← List.map_map, List.enum_eq_enumFrom, List.enumFrom_map_snd]
  · have h : (fl_pipeline_func cs ss conns enf).tasks.filter
        (fun t => decide (t.kind = TaskKind.setup)) =
        setup_task :: (clientTasks cs enf conns).filter
          (fun t => decide (t.kind = TaskKind.setup)) := rfl
    rw [h, hclientnk TaskKind.setup (by decide)]
    rfl
  · have h : (fl_pipeline_func cs ss conns enf).tasks.filter
        (fun t => decide (t.kind = TaskKind.server)) =
        server_task ss :: (clientTasks cs enf conns).filter
          (fun t => decide (t.kind = TaskKind.server)) := rfl
    rw [h, hclientnk TaskKind.server (by decide)]
    rfl
  · have h : (fl_pipeline_func cs ss conns enf).tasks.filter
        (fun t => decide (t.kind = TaskKind.teardown)) =
        cleanup_task :: (clientTasks cs enf conns).filter
          (fun t => decide (t.kind = TaskKind.teardown)) := rfl
    rw [h, hclientnk TaskKind.teardown (by decide)]
    rfl
  · intro t ht hk
    rcases List.mem_cons.mp ht with rfl | ht
    · rcases hk with h | h <;> exact absurd h (by decide)
    rcases List.mem_cons.mp ht with rfl | ht
    · rcases hk with h | h <;> exact absurd h (by decide)
    rcases List.mem_cons.mp ht with rfl | ht
    · rfl
    · rcases clientTasks_mem ht with ⟨ic, _, rfl⟩
      rfl
  · intro t ht
    rcases List.mem_cons.mp ht with rfl | ht
    · constructor
      · intro h; exact absurd h (by decide)
      · intro h; rcases h with h | h <;> exact absurd h (by decide)
    rcases List.mem_cons.mp ht with rfl | ht
    · constructor
      · intro h; exact absurd h (by decide)
      · intro h; rcases h with h | h <;> exact absurd h (by decide)
    rcases List.mem_cons.mp ht with rfl | ht
    · constructor
      · intro _; exact Or.inl rfl
      · intro _; rfl
    · rcases clientTasks_mem ht with ⟨ic, _, rfl⟩
      constructor
      · intro _; exact Or.inr rfl
      · intro _; rfl

/-- Witness for `c2_teardown_exactly_once`: one connector, all tasks
failing — the teardown still executes exactly once, last. -/
theorem c2_teardown_exactly_once_witness :
    (execTrace (fl_pipeline_func clientMinimalSig serverMinimalSig
        [⟨PyObj.lit "d0", some "eu"⟩] true) (fun _ => Outcome.failure)).count
      cleanupTaskId = 1 ∧
    (execTrace (fl_pipeline_func clientMinimalSig serverMinimalSig
        [⟨PyObj.lit "d0", some "eu"⟩] true) (fun _ => Outcome.failure)).getLast? =
      some cleanupTaskId ∧
    (server_task serverMinimalSig).inExitScope = true := by
  have h := c2_teardown_exactly_once clientMinimalSig serverMinimalSig
    [⟨PyObj.lit "d0", some "eu"⟩] true (fun _ => Outcome.failure)
  exact ⟨h.2.2.2.2.1, h.2.2.2.2.2,
    h.2.2.2.1 (server_task serverMinimalSig) (by decide) (Or.inl rfl)⟩

/-- Witness for `c3_graph_shape`: two connectors — two client tasks, the
server ordered after the setup task, and the successful trace runs
setup, server, both clients, then teardown. -/
theorem c3_graph_shape_witness :
    ((fl_pipeline_func clientMinimalSig serverMinimalSig
        [⟨PyObj.lit "d0", some "eu"⟩, ⟨PyObj.lit "d1", none⟩] false).tasks.filter
      (fun t => decide (t.kind = TaskKind.client))).length = 2 ∧
    (server_task serverMinimalSig).afterDeps = [setupTaskId] ∧
    execTrace (fl_pipeline_func clientMinimalSig serverMinimalSig
        [⟨PyObj.lit "d0", some "eu"⟩, ⟨PyObj.lit "d1", none⟩] false)
      (fun _ => Outcome.success) = [0, 2, 3, 4, 1] := by
  have h := c3_graph_shape clientMinimalSig serverMinimalSig
    [⟨PyObj.lit "d0", some "eu"⟩, ⟨PyObj.lit "d1", none⟩] false
  refine ⟨h.1, h.2.2.2.2.2.1 (server_task serverMinimalSig) (by decide) (Or.inl rfl), ?_⟩
  rw [h.2.2.2.2.2.2.2 (fun _ => Outcome.success)]
  rfl

/-- Claim C4: `get_served_model_url` probes the readiness predicate
repeatedly, sleeping `min(base * 2^(attempt-1), max_wait)` between
attempts (base 2, max wait 10, so inter-probe delays are non-decreasing
and bounded above by 10); if the endpoint first becomes ready on the
`k`-th probe with `k` at most the 30-attempt budget, exactly `k` probes
are issued and the endpoint's address is returned; if it never becomes
ready within the budget, exactly 30 probes are issued and the
`AssertionError` naming the inference service is re-raised. -/
theorem c4_readiness_poller (ready : Nat → Bool) (addr : String → String)
    (isvc_name : String) :
    (∀ k, 1 ≤ k → k ≤ 30 → (∀ j, 1 ≤ j → j < k → ready j = false) →
      ready k = true →
      get_served_model_url ready addr isvc_name =
        (k, (List.range (k - 1)).map (fun i => min (2 * 2 ^ i) 10),
          Except.ok (addr isvc_name))) ∧
    ((∀ j, 1 ≤ j → j ≤ 30 → ready j = false) →
      get_served_model_url ready addr isvc_name =
        (30, (List.range 29).map (fun i => min (2 * 2 ^ i) 10),
          Except.error ("Failed to create Inference Service " ++ isvc_name ++ "."))) ∧
    (∀ i : Nat, assertWait (i + 1) = min (2 * 2 ^ i) 10) ∧
    (∀ i j : Nat, i ≤ j → assertWait (i + 1) ≤ assertWait (j + 1)) ∧
    (∀ i : Nat, assertWait (i + 1) ≤ 10) := by
  have hfun : (fun i => assertWait (1 + i)) = fun i : Nat => min (2 * 2 ^ i) 10 := by
    funext i
    rw [Nat.add_comm 1 i, assertWait_eq]
  refine ⟨?_, ?_, assertWait_eq, fun i j h => assertWait_mono h, assertWait_le⟩
  · intro k hk1 hk30 hprev hk
    have hr := retryProbe_success ready 30 1 k hk1 (by omega) hprev hk
    rw [get_served_model_url, hr]
    have hk' : k - 1 + 1 = k := by omega
    rw [hfun, hk']
    rfl
  · intro hnever
    have hr := retryProbe_fail ready 30 1 (fun j hj1 hj2 => hnever j hj1 (by omega))
    rw [get_served_model_url, hr]
    rw [hfun]
    rfl

/-- Witness for `c4_readiness_poller`: a mock endpoint ready on the 3rd
probe yields exactly 3 probes, sleeps `[2, 4]` and the address; a mock
endpoint that is never ready yields exactly 30 probes and the error
naming the service, with 29 non-decreasing sleeps capped at 10. -/
theorem c4_readiness_poller_witness :
    get_served_model_url (fun k => decide (3 ≤ k)) (fun _ => "http://u") "model-a" =
      (3, [2, 4], Except.ok "http://u") ∧
    get_served_model_url (fun _ => false) (fun _ => "http://u") "model-a" =
      (30, [2, 4, 8, 10, 10, 10, 10, 10, 10, 10, 10, 10, 10, 10, 10, 10, 10, 10,
        10, 10, 10, 10, 10, 10, 10, 10, 10, 10, 10],
        Except.error "Failed to create Inference Service model-a.") := by
  constructor
  · have h := (c4_readiness_poller (fun k => decide (3 ≤ k))
      (fun _ => "http://u") "model-a").1 3 (by omega) (by omega)
      (fun j hj1 hj2 => decide_eq_false (by omega)) (by decide)
    rw [h]
    rfl
  · have h := (c4_readiness_poller (fun _ => false)
      (fun _ => "http://u") "model-a").2.1 (fun j _ _ => rfl)
    rw [h]
    rfl

/-- Claim C6: each client task carries a hard placement constraint
(`add_node_selector_constraint("region", ...)`) equal to its connector's
region — the empty string when the connector has no region attribute —
exactly when `node_enforce` is true; when `node_enforce` is false no
constraint is attached, whatever the connector's region. -/
theorem c6_placement_constraint (cs ss : Sig) (conns : List Connector)
    (enf : Bool) (i : Nat) (h : i < conns.length) :
    ∃ t, ((fl_pipeline_func cs ss conns enf).tasks.filter
        (fun t => decide (t.kind = TaskKind.client)))[i]? = some t ∧
      t.nodeSelector =
        (if enf then some ("region", regionOf (conns.get ⟨i, h⟩)) else none) := by
  exact ⟨clientTaskFor cs enf i (conns.get ⟨i, h⟩),
    fl_clients_getElem cs ss conns enf i h, rfl⟩

/-- Witness for `c6_placement_constraint`: with enforcement and region
`"eu"` the constraint is `("region", "eu")`; with enforcement and no
region attribute it is `("region", "")`; without enforcement there is
none despite the region. -/
theorem c6_placement_constraint_witness :
    (∃ t, ((fl_pipeline_func clientMinimalSig serverMinimalSig
        [⟨PyObj.lit "d0", some "eu"⟩, ⟨PyObj.lit "d1", none⟩] true).tasks.filter
          (fun t => decide (t.kind = TaskKind.client)))[0]? = some t ∧
      t.nodeSelector = some ("region", "eu")) ∧
    (∃ t, ((fl_pipeline_func clientMinimalSig serverMinimalSig
        [⟨PyObj.lit "d0", some "eu"⟩, ⟨PyObj.lit "d1", none⟩] true).tasks.filter
          (fun t => decide (t.kind = TaskKind.client)))[1]? = some t ∧
      t.nodeSelector = some ("region", "")) ∧
    (∃ t, ((fl_pipeline_func clientMinimalSig serverMinimalSig
        [⟨PyObj.lit "d0", some "eu"⟩] false).tasks.filter
          (fun t => decide (t.kind = TaskKind.client)))[0]? = some t ∧
      t.nodeSelector = none) := by
  refine ⟨?_, ?_, ?_⟩
  · obtain ⟨t, h1, h2⟩ := c6_placement_constraint clientMinimalSig serverMinimalSig
      [⟨PyObj.lit "d0", some "eu"⟩, ⟨PyObj.lit "d1", none⟩] true 0 (by decide)
    exact ⟨t, h1, h2⟩
  · obtain ⟨t, h1, h2⟩ := c6_placement_constraint clientMinimalSig serverMinimalSig
      [⟨PyObj.lit "d0", some "eu"⟩, ⟨PyObj.lit "d1", none⟩] true 1 (by decide)
    exact ⟨t, h1, h2⟩
  · obtain ⟨t, h1, h2⟩ := c6_placement_constraint clientMinimalSig serverMinimalSig
      [⟨PyObj.lit "d0", some "eu"⟩] false 0 (by decide)
    exact ⟨t, h1, h2⟩

/-- Claim C9 is false as stated: in the composed graph the client task's
`server_address` argument is the *setup* task's output
(`setup_task.output`, the created service name), not an output produced
by the server task — the server task's output is never consumed. -/
theorem c9_counterexample :
    ((fl_pipeline_func clientMinimalSig serverMinimalSig
        [⟨PyObj.lit "d0", none⟩] false).tasks.filter
          (fun t => decide (t.kind = TaskKind.client))).map
        (fun t => List.lookup "server_address" t.args) =
      [some (ArgSource.taskOutput setupTaskId)] ∧
    ((fl_pipeline_func clientMinimalSig serverMinimalSig
        [⟨PyObj.lit "d0", none⟩] false).tasks.filter
          (fun t => decide (t.kind = TaskKind.server))).map Task.id =
      [serverTaskId] ∧
    some (ArgSource.taskOutput setupTaskId) ≠
      some (ArgSource.taskOutput serverTaskId) := by
  exact ⟨rfl, rfl, by decide⟩

/-- Claim C9 (amended): each client task is invoked with the setup
task's produced output — the run-scoped endpoint (service) name — as its
`server_address` argument, the connector's `link` as its
`local_data_connector` argument, and the client-extras drawn from the
bound pipeline arguments. -/
theorem c9_client_invocation (cs ss : Sig) (conns : List Connector)
    (enf : Bool) (i : Nat) (h : i < conns.length) :
    ∃ t, ((fl_pipeline_func cs ss conns enf).tasks.filter
        (fun t => decide (t.kind = TaskKind.client)))[i]? = some t ∧
      t.args = ("server_address", ArgSource.taskOutput setup_task.id) ::
        ("local_data_connector", ArgSource.const (conns.get ⟨i, h⟩).link) ::
        (clientExtraNames cs).map (fun k => (k, ArgSource.bound k)) ∧
      setup_task.kind = TaskKind.setup ∧
      setup_task.args = [("name", ArgSource.constStr srv_name)] := by
  exact ⟨clientTaskFor cs enf i (conns.get ⟨i, h⟩),
    fl_clients_getElem cs ss conns enf i h, rfl, rfl, rfl⟩

/-- Witness for `c9_client_invocation`: with a client declaring the
extra `lr`, the client task receives the setup output, the connector
link `"d0"` and the bound `lr` argument. -/
theorem c9_client_invocation_witness :
    ∃ t, ((fl_pipeline_func clientLrSig serverMinimalSig
        [⟨PyObj.lit "d0", none⟩] false).tasks.filter
          (fun t => decide (t.kind = TaskKind.client)))[0]? = some t ∧
      t.args = [("server_address", ArgSource.taskOutput setup_task.id),
        ("local_data_connector", ArgSource.const (PyObj.lit "d0")),
        ("lr", ArgSource.bound "lr")] := by
  obtain ⟨t, h1, h2, _⟩ := c9_client_invocation clientLrSig serverMinimalSig
    [⟨PyObj.lit "d0", none⟩] false 0 (by decide)
  exact ⟨t, h1, by rw [h2]; rfl⟩

/-- Claim C5 is false in one respect: the final status is not returned.
With a run handle whose submission-time status snapshot is `"Running"`
and an orchestrator already reporting `"Succeeded"`, the loop terminates
after one gating query, but the function returns the original submission
handle unchanged — no queried status, and in particular not the terminal
`"Succeeded"`, is returned to the caller. -/
theorem c5_counterexample :
    create_run_from_pipeline_func ⟨"run-1", "Running"⟩ (fun _ => "Succeeded") 5 =
      some ((1, [], 0), ⟨"run-1", "Running"⟩) ∧
    (⟨"run-1", "Running"⟩ : RunDetails).status ≠ "Succeeded" := by
  exact ⟨rfl, by decide⟩

/-- Claim C5 (amended): the run poller loops with a fixed, non-adaptive
sleep and no attempt cap until the gating status query observes one of
the four terminal states `Succeeded`, `Failed`, `Skipped` or `Error`;
each non-terminal iteration reports a freshly queried status before
sleeping; the loop itself never fails once a gating query observes a
terminal status; on termination the function returns the original
submission handle unchanged (the final status is not returned); with a
mock reporting Running twice then Succeeded it performs exactly 3 status
queries. -/
theorem c5_run_poller (rd : RunDetails) (statuses : Nat → String)
    (fuel tot sleeps : Nat) (printed : List String) :
    (runPollLoop statuses fuel 0 = some (tot, printed, sleeps) →
      create_run_from_pipeline_func rd statuses fuel =
        some ((tot, printed, sleeps), rd) ∧
      tot = 2 * sleeps + 1 ∧
      is_run_finished (statuses (2 * sleeps)) = true ∧
      (∀ i, i < sleeps → is_run_finished (statuses (2 * i)) = false) ∧
      printed = (List.range sleeps).map (fun i => statuses (2 * i + 1))) ∧
    ((∃ n, n < fuel ∧ is_run_finished (statuses (2 * n)) = true) →
      (runPollLoop statuses fuel 0).isSome = true) := by
  constructor
  · intro h
    obtain ⟨h1, h2, h3, h4⟩ := runPollLoop_spec statuses fuel 0 tot printed sleeps h
    refine ⟨?_, by omega, ?_, ?_, ?_⟩
    · rw [create_run_from_pipeline_func, h]
      rfl
    · have e : 2 * sleeps = 0 + 2 * sleeps := by omega
      rw [e]
      exact h2
    · intro i hi
      have e : 2 * i = 0 + 2 * i := by omega
      rw [e]
      exact h3 i hi
    · rw [h4]
      refine List.map_congr_left (fun i _ => ?_)
      congr 1
      omega
  · rintro ⟨n, hn, hfin⟩
    refine runPollLoop_total statuses fuel 0 ⟨n, hn, ?_⟩
    have e : 0 + 2 * n = 2 * n := by omega
    rw [e]
    exact hfin

/-- Witness for `c5_run_poller`: a mock orchestrator reporting Running
twice then Succeeded — exactly 3 status queries, one printed status, one
sleep, and the original handle returned. -/
theorem c5_run_poller_witness :
    create_run_from_pipeline_func ⟨"run-1", "Running"⟩
        (fun i => if i ≤ 1 then "Running" else "Succeeded") 5 =
      some ((3, ["Running"], 1), ⟨"run-1", "Running"⟩) ∧
    (3 : Nat) = 2 * 1 + 1 := by
  have h := (c5_run_poller ⟨"run-1", "Running"⟩
    (fun i => if i ≤ 1 then "Running" else "Succeeded") 5 3 1 ["Running"]).1 rfl
  exact ⟨h.1, h.2.1⟩

/-- Claim C10: every non-terminal iteration of the run-polling loop
issues two separate status queries — the gating query at an even index
and the reporting query at the following odd index — so the total query
count of a terminating run is `2 * sleeps + 1`, the reported statuses
are those of the odd-indexed queries, and the reported status can
already be terminal while the gating one was not, the loop still
sleeping one full interval before re-checking: with gate Running then
report Succeeded the loop prints `Succeeded`, sleeps once and only then
observes termination, in 3 queries total. -/
theorem c10_double_query (statuses : Nat → String) (fuel tot sleeps : Nat)
    (printed : List String)
    (h : runPollLoop statuses fuel 0 = some (tot, printed, sleeps)) :
    tot = 2 * sleeps + 1 ∧
    printed = (List.range sleeps).map (fun i => statuses (2 * i + 1)) ∧
    (∀ i, i < sleeps → is_run_finished (statuses (2 * i)) = false) ∧
    runPollLoop (fun i => if i = 0 then "Running" else "Succeeded") 5 0 =
      some (3, ["Succeeded"], 1) := by
  obtain ⟨h1, _, h3, h4⟩ := runPollLoop_spec statuses fuel 0 tot printed sleeps h
  refine ⟨by omega, ?_, ?_, rfl⟩
  · rw [h4]
    refine List.map_congr_left (fun i _ => ?_)
    congr 1
    omega
  · intro i hi
    have e : 2 * i = 0 + 2 * i := by omega
    rw [e]
    exact h3 i hi

/-- Witness for `c10_double_query`: the gate-Running/report-Succeeded
oracle — 3 total queries, the printed status is the terminal one from
the odd-indexed query, and one full sleep happened anyway. -/
theorem c10_double_query_witness :
    runPollLoop (fun i => if i = 0 then "Running" else "Succeeded") 5 0 =
      some (3, ["Succeeded"], 1) ∧
    (3 : Nat) = 2 * 1 + 1 ∧
    ["Succeeded"] = (List.range 1).map
      (fun i => (fun j : Nat => if j = 0 then "Running" else "Succeeded") (2 * i + 1)) := by
  have h := c10_double_query (fun i => if i = 0 then "Running" else "Succeeded")
    5 3 1 ["Succeeded"] rfl
  exact ⟨h.2.2.2, h.1, h.2.1⟩

/-- Claim C7 is false in one respect: creation is not idempotent against
the benign "already exists" condition.  With an orchestrator answering
the creation call with a 409 Conflict `ApiException`, `create_service`
raises a `RuntimeError` instead of succeeding with the service name. -/
theorem c7_counterexample :
    create_service (fun _ => Except.error ⟨409, "already exists"⟩) "flserver-abc" =
      Except.error "Exception when creating service: already exists" ∧
    Except.error "Exception when creating service: already exists" ≠
      (Except.ok "flserver-abc" : Except String String) := by
  exact ⟨rfl, fun hcontra => Except.noConfusion hcontra⟩

/-- Claim C7 (amended): `create_service(name)` returns the given name on
success; every `ApiException` from the orchestrator — the benign
"already exists" conflict included — is re-raised as a `RuntimeError`
naming the failure, aborting submission; and when the setup task (which
performs the creation) does not succeed, the server task never runs. -/
theorem c7_create_service (createNS : String → Except ApiException Unit)
    (name : String) :
    (createNS name = Except.ok () → create_service createNS name = Except.ok name) ∧
    (∀ e, createNS name = Except.error e →
      create_service createNS name =
        Except.error ("Exception when creating service: " ++ e.msg)) ∧
    (∀ (cs ss : Sig) (conns : List Connector) (enf : Bool) (oc : Nat → Outcome),
      oc setupTaskId ≠ Outcome.success →
        serverTaskId ∉ execTrace (fl_pipeline_func cs ss conns enf) oc) := by
  refine ⟨?_, ?_, ?_⟩
  · intro h
    rw [create_service, h]
  · intro e h
    rw [create_service, h]
  · intro cs ss conns enf oc hoc
    rw [execTrace_fl, if_neg hoc]
    decide

/-- Witness for `c7_create_service`: a succeeding creation returns the
name, a failing creation (status 500) raises the wrapping error, and
with a failed setup task the server task is absent from the trace. -/
theorem c7_create_service_witness :
    create_service (fun _ => Except.ok ()) "flserver-abc" =
      Except.ok "flserver-abc" ∧
    create_service (fun _ => Except.error ⟨500, "boom"⟩) "flserver-abc" =
      Except.error "Exception when creating service: boom" ∧
    serverTaskId ∉ execTrace (fl_pipeline_func clientMinimalSig serverMinimalSig
      [⟨PyObj.lit "d0", none⟩] true) (fun _ => Outcome.failure) := by
  refine ⟨(c7_create_service (fun _ => Except.ok ()) "flserver-abc").1 rfl,
    (c7_create_service (fun _ => Except.error ⟨500, "boom"⟩) "flserver-abc").2.1
      ⟨500, "boom"⟩ rfl,
    (c7_create_service (fun _ => Except.ok ()) "flserver-abc").2.2
      clientMinimalSig serverMinimalSig [⟨PyObj.lit "d0", none⟩] true
      (fun _ => Outcome.failure) (by decide)⟩

/-- Claim C8 is false in one respect: only `ApiException` failures are
swallowed.  A deletion failure of any other exception class propagates
past `delete_service`'s boundary. -/
theorem c8_counterexample :
    delete_service (fun _ => Except.error (PyError.otherExc "connection reset"))
        "flserver-abc" =
      ([], Except.error (PyError.otherExc "connection reset")) ∧
    Except.error (PyError.otherExc "connection reset") ≠
      (Except.ok () : Except PyError Unit) := by
  exact ⟨rfl, fun hcontra => Except.noConfusion hcontra⟩

/-- Claim C8 (amended): `delete_service(name)` returns normally on
success and on every `ApiException` from the underlying deletion — the
`ApiException` is logged and swallowed — while a failure of any other
exception class propagates past its boundary. -/
theorem c8_delete_service (deleteNS : String → Except PyError Unit)
    (name : String) :
    (deleteNS name = Except.ok () →
      delete_service deleteNS name =
        (["Service " ++ name ++ " deleted successfully"], Except.ok ())) ∧
    (∀ e, deleteNS name = Except.error (PyError.apiExc e) →
      delete_service deleteNS name =
        (["Exception when deleting service: " ++ e.msg], Except.ok ())) ∧
    (∀ m, deleteNS name = Except.error (PyError.otherExc m) →
      delete_service deleteNS name = ([], Except.error (PyError.otherExc m))) := by
  refine ⟨?_, ?_, ?_⟩
  · intro h
    rw [delete_service, h]
  · intro e h
    rw [delete_service, h]
  · intro m h
    rw [delete_service, h]

/-- Witness for `c8_delete_service`: a 404 `ApiException` from deletion
is logged and swallowed; a successful deletion also returns normally. -/
theorem c8_delete_service_witness :
    delete_service (fun _ => Except.error (PyError.apiExc ⟨404, "not found"⟩))
        "flserver-abc" =
      (["Exception when deleting service: not found"], Except.ok ()) ∧
    delete_service (fun _ => Except.ok ()) "flserver-abc" =
      (["Service flserver-abc deleted successfully"], Except.ok ()) := by
  refine ⟨(c8_delete_service
      (fun _ => Except.error (PyError.apiExc ⟨404, "not found"⟩)) "flserver-abc").2.1
        ⟨404, "not found"⟩ rfl, ?_⟩
  have h := (c8_delete_service (fun _ => Except.ok ()) "flserver-abc").1 rfl
  rw [h]
  rfl

/-- Witness for `c1_merged_signature`: at the lr/epochs example the
merged signature is exactly `[number_of_iterations, lr, epochs]`, and at
the required-parameters-only example it is `[number_of_iterations]`. -/
theorem c1_merged_signature_witness :
    pipeline_sig clientLrSig serverEpochsSig =
      Except.ok (sig_params clientLrSig serverEpochsSig) ∧
    (sig_params clientLrSig serverEpochsSig).map Param.name =
      ["number_of_iterations", "lr", "epochs"] ∧
    (sig_params clientMinimalSig serverMinimalSig).map Param.name =
      ["number_of_iterations"] := by
  refine ⟨rfl, ?_, ?_⟩
  · have h := c1_merged_signature clientLrSig serverEpochsSig
      (sig_params clientLrSig serverEpochsSig) rfl
    rw [h.1]; decide
  · have h := c1_merged_signature clientMinimalSig serverMinimalSig
      (sig_params clientMinimalSig serverMinimalSig) rfl
    rw [h.1]; decide

end Cogflow
